import Mathlib

/-!
Verification of the interaction state machine of a click-driven chess UI.

The repository contains two React variants of the same design:
* `App.tsx` (variant 1): owns the chess.js instance, `selectedSquare`,
  `lastMove` and `moveHistory : string[]` (SAN strings); hints are the
  derived memo `validMoves`; `handleSquareClick` is gated on `isGameOver`;
  no undo.
* an unnamed `App` (variant 2) plus `ChessBoard.tsx`: the `App` owns the
  chess.js instance, `moveHistory : Move[]`, a `status` string and a
  `gameEnded` flag, and provides `makeMove`, `undoMove`, `resetGame`;
  the `ChessBoard` component owns `selectedSquare` and `hintSquares` and
  implements its own `handleSquareClick` (with no game-over gate).

Chess rule legality itself is delegated to the chess.js library (the
spec's "Rules Engine") and is out of scope; it is modelled here as an
abstract `Engine` structure over opaque position and square types.  The
chess.js *instance* behaviour that the code relies on is modelled by
`GameObj`: `move()` mutates the position and pushes the previous position
onto an internal history stack, `undo()` pops that stack (and is a no-op
returning null when the stack is empty), `fen()` serialises the current
position, and the constructor `new Chess(fen)` parses a FEN into a fresh
object whose internal history stack is EMPTY.  FEN serialisation is taken
to round-trip the position, so `new Chess(g.fen())` is modelled as a
`GameObj` with the same position and an empty stack.
-/

/-- Side of a piece / side to move, chess.js `'w' | 'b'`. -/
inductive Side where
  | white
  | black
deriving DecidableEq, Repr

/-- Piece kinds, chess.js `p n b r q k`. -/
inductive PieceKind where
  | pawn
  | knight
  | bishop
  | rook
  | queen
  | king
deriving DecidableEq, Repr

/-- A board piece as returned by chess.js `game.get(square)`:
`{ color, type }`.  Only `color` is inspected by the interaction logic. -/
structure Piece where
  color : Side
  kind : PieceKind
deriving DecidableEq, Repr

/-- A move record as returned by chess.js `game.move(...)`: the fields the
code reads are `from`, `to` and `san`.  `from` is a Lean keyword, so the
fields are named `fromSq` / `toSq`. -/
structure MoveRec (Sq : Type) where
  fromSq : Sq
  toSq : Sq
  san : String
deriving DecidableEq, Repr

/-- The Rules Engine capability interface (spec section 6), i.e. the pure,
position-level fragment of chess.js that the two apps consume.  Both call
sites always pass `promotion: 'q'` (auto-queen), so the fixed promotion is
folded into `applyMove`.  `applyMove` returns `none` where chess.js
`move()` rejects the move (throwing in recent versions, returning null in
older ones — both apps treat the two identically via try/catch). -/
structure Engine (Pos Sq : Type) where
  init : Pos
  turn : Pos → Side
  pieceAt : Pos → Sq → Option Piece
  movesFrom : Pos → Sq → List Sq
  applyMove : Pos → Sq → Sq → Option (Pos × MoveRec Sq)
  inCheck : Pos → Bool
  isCheckmate : Pos → Bool
  isDraw : Pos → Bool
  isGameOver : Pos → Bool

/-- A chess.js instance as the two apps use it: the current position plus
the internal history stack that `move()` pushes onto and `undo()` pops.
`new Chess(fen)` always yields `hist = []`. -/
structure GameObj (Pos : Type) where
  pos : Pos
  hist : List Pos
deriving DecidableEq, Repr

/-- `new Chess()`: the initial position, empty internal history. -/
def newChess {Pos Sq : Type} (e : Engine Pos Sq) : GameObj Pos :=
  { pos := e.init, hist := [] }

/-- `new Chess(g.fen())`: FEN round-trips the position, but the freshly
constructed object starts with an EMPTY internal history stack — the
previous object's undo stack is discarded. -/
def chessFromFen {Pos : Type} (p : Pos) : GameObj Pos :=
  { pos := p, hist := [] }

/-- `g.move({from, to, promotion: 'q'})`: on acceptance the object mutates
to the new position and pushes the old position onto its history stack,
returning the move record; on rejection (`none`) the object is unchanged. -/
def GameObj.move {Pos Sq : Type} (e : Engine Pos Sq) (g : GameObj Pos)
    (f t : Sq) : Option (GameObj Pos × MoveRec Sq) :=
  match e.applyMove g.pos f t with
  | none => none
  | some (p, r) => some ({ pos := p, hist := g.hist ++ [g.pos] }, r)

/-- `g.undo()`: pops the last position off the internal history stack; when
the stack is empty chess.js returns null and leaves the object unchanged.
The two apps never read undo's return value, so only the object effect is
modelled. -/
def GameObj.undo {Pos : Type} (g : GameObj Pos) : GameObj Pos :=
  match g.hist.getLast? with
  | none => g
  | some p => { pos := p, hist := g.hist.dropLast }

variable {Pos Sq : Type}

/-! ### Variant 1: `App.tsx`

React state: `game`, `selectedSquare`, `lastMove`, `moveHistory` (SAN
strings).  `turn`, `isCheck`, `isGameOver`, `board` and `validMoves` are
derived per render.  Each click is processed synchronously to completion
(spec section 5), so the whole component is a pure step function on this
state record. -/

structure AppState1 (Pos Sq : Type) where
  game : GameObj Pos
  selectedSquare : Option Sq
  lastMove : Option (Sq × Sq)
  moveHistory : List String
deriving DecidableEq, Repr

/-- `App.tsx` `makeMove`: `game.move(move)` inside try/catch; on success
`setGame(new Chess(game.fen()))` (the fen of the mutated object, i.e. the
post-move position), `setLastMove({from, to})`, append `result.san` to the
history, clear the selection, and return `true`; on rejection (null result
or thrown error) return `false` with no state change. -/
def makeMove1 [DecidableEq Sq] (e : Engine Pos Sq) (st : AppState1 Pos Sq)
    (f t : Sq) : Bool × AppState1 Pos Sq :=
  match st.game.move e f t with
  | some (g, r) =>
      (true, { game := chessFromFen g.pos
               selectedSquare := none
               lastMove := some (f, t)
               moveHistory := st.moveHistory ++ [r.san] })
  | none => (false, st)

/-- `App.tsx` `handleSquareClick`: early return when `isGameOver`; toggle
off when re-clicking the selected square; select any piece of the side to
move; otherwise, when a square is selected, attempt the move (auto-queen),
and on failure either reselect (dead re-check of the friendly-piece
condition) or clear the selection. -/
def handleSquareClick1 [DecidableEq Sq] (e : Engine Pos Sq)
    (st : AppState1 Pos Sq) (square : Sq) : AppState1 Pos Sq :=
  if e.isGameOver st.game.pos then st
  else if st.selectedSquare = some square then
    { st with selectedSquare := none }
  else if (e.pieceAt st.game.pos square).map Piece.color
      = some (e.turn st.game.pos) then
    { st with selectedSquare := some square }
  else
    match st.selectedSquare with
    | none => st
    | some sel =>
        let res := makeMove1 e st sel square
        if res.1 then res.2
        else if (e.pieceAt st.game.pos square).map Piece.color
            = some (e.turn st.game.pos) then
          { res.2 with selectedSquare := some square }
        else
          { res.2 with selectedSquare := none }

/-- `App.tsx` `resetGame`: fresh `Chess`, everything cleared. -/
def resetGame1 (e : Engine Pos Sq) : AppState1 Pos Sq :=
  { game := newChess e
    selectedSquare := none
    lastMove := none
    moveHistory := [] }

/-- `App.tsx` `validMoves` memo: `game.moves({square, verbose: true})
.map(m => m.to)` for the selected square, `[]` when nothing is selected.
These are the hints rendered on the board. -/
def validMoves1 (e : Engine Pos Sq) (st : AppState1 Pos Sq) : List Sq :=
  match st.selectedSquare with
  | some s => e.movesFrom st.game.pos s
  | none => []

/-! ### Variant 2: unnamed `App` + `ChessBoard.tsx`

The `App` owns `game`, `moveHistory` (full move records), `status` and
`gameEnded`; the `ChessBoard` owns `selectedSquare` and `hintSquares`.
`lastMove` is not stored: the board receives the last history entry as a
prop.  One combined record models the pair of components; each click or
button press is synchronous. -/

structure AppState2 (Pos Sq : Type) where
  game : GameObj Pos
  moveHistory : List (MoveRec Sq)
  status : String
  gameEnded : Bool
  selectedSquare : Option Sq
  hintSquares : List Sq
deriving DecidableEq, Repr

/-- Unnamed `App` `updateStatus`: recompute the status string from the
game; `setGameEnded(true)` on checkmate or draw — and only then: the else
branch never writes `gameEnded`, so once set it survives every later
status update. -/
def updateStatus (e : Engine Pos Sq) (st : AppState2 Pos Sq) :
    AppState2 Pos Sq :=
  let turnName := if e.turn st.game.pos = Side.white then "White" else "Black"
  if e.isCheckmate st.game.pos then
    { st with
        status := "Game Over - Checkmate! "
          ++ (if turnName = "White" then "Black" else "White") ++ " wins."
        gameEnded := true }
  else if e.isDraw st.game.pos then
    { st with status := "Game Over - Draw", gameEnded := true }
  else
    { st with
        status := turnName ++ " to move"
          ++ (if e.inCheck st.game.pos then " (Check!)" else "") }

/-- Unnamed `App` `makeMove`: `game.move(move)` inside try/catch; on
success `setGame(new Chess(game.fen()))`, append the full move record,
then `updateStatus()` (which reads the mutated game object, i.e. the
post-move position); on rejection the catch block swallows the error and
nothing changes.  The function returns no value. -/
def makeMove2 [DecidableEq Sq] (e : Engine Pos Sq) (st : AppState2 Pos Sq)
    (f t : Sq) : AppState2 Pos Sq :=
  match st.game.move e f t with
  | some (g, r) =>
      updateStatus e
        { st with game := chessFromFen g.pos
                  moveHistory := st.moveHistory ++ [r] }
  | none => st

/-- The JavaScript return value of the unnamed `App`'s `makeMove`, path
by path: the success branch ends with `updateStatus()` and falls off the
end of the function, and the empty catch block swallows the rejection and
likewise falls off the end — neither path has a return statement, so the
value is `undefined` (`none`) on acceptance and rejection alike, for
comparison with the spec's `Result<MoveRecord, IllegalMove>` contract. -/
def makeMove2Return [DecidableEq Sq] (e : Engine Pos Sq)
    (st : AppState2 Pos Sq) (f t : Sq) : Option Bool :=
  match st.game.move e f t with
  | some _ => none
  | none => none

/-- Unnamed `App` `undoMove`: `game.undo()` (a no-op whenever the object's
internal history stack is empty — which is always the case here, because
every `setGame` stores `new Chess(game.fen())`), then
`setGame(new Chess(game.fen()))`, drop the last history entry
(`slice(0, -1)`), then `updateStatus()`.  The arrow function has no return
statement, so its JavaScript value is `undefined`: the returned
`Option Bool` models that value (`none` = undefined), for comparison with
the spec's `undo() → boolean` contract. -/
def undoMove [DecidableEq Sq] (e : Engine Pos Sq) (st : AppState2 Pos Sq) :
    Option Bool × AppState2 Pos Sq :=
  let g := st.game.undo
  (none, updateStatus e
    { st with game := chessFromFen g.pos
              moveHistory := st.moveHistory.dropLast })

/-- Unnamed `App` `resetGame`: fresh `Chess`, history cleared, `gameEnded`
cleared, status reset.  Note it does NOT touch the `ChessBoard`'s local
`selectedSquare` / `hintSquares` state. -/
def resetGame2 (e : Engine Pos Sq) (st : AppState2 Pos Sq) :
    AppState2 Pos Sq :=
  { st with game := newChess e
            moveHistory := []
            gameEnded := false
            status := "White to move" }

/-- The mount-time state of variant 2: `useState` initials of both
components. -/
def initState2 (e : Engine Pos Sq) : AppState2 Pos Sq :=
  { game := newChess e
    moveHistory := []
    status := "White to move"
    gameEnded := false
    selectedSquare := none
    hintSquares := [] }

/-- `ChessBoard.tsx` `handleSquareClick`: toggle off on the selected
square; select any piece of the side to move and store its legal
destinations as `hintSquares`; when a square is selected and the click is
on a stored hint, call `onMove` (the `App`'s `makeMove`, synchronously)
and clear the selection; otherwise clear the selection.  There is no
game-over gate in this handler. -/
def handleSquareClick2 [DecidableEq Sq] (e : Engine Pos Sq)
    (st : AppState2 Pos Sq) (square : Sq) : AppState2 Pos Sq :=
  if st.selectedSquare = some square then
    { st with selectedSquare := none, hintSquares := [] }
  else if (e.pieceAt st.game.pos square).map Piece.color
      = some (e.turn st.game.pos) then
    { st with selectedSquare := some square
              hintSquares := e.movesFrom st.game.pos square }
  else
    match st.selectedSquare with
    | some sel =>
        if square ∈ st.hintSquares then
          let st' := makeMove2 e st sel square
          { st' with selectedSquare := none, hintSquares := [] }
        else
          { st with selectedSquare := none, hintSquares := [] }
    | none => { st with selectedSquare := none, hintSquares := [] }

/-- The `lastMove` prop handed to the board in variant 2:
`moveHistory[moveHistory.length - 1]`, i.e. the last history entry or
undefined. -/
def lastMove2 (st : AppState2 Pos Sq) : Option (MoveRec Sq) :=
  st.moveHistory.getLast?

/-- Engine coherence (chess.js contract): `game.moves({square})` lists
exactly the destinations `game.move` accepts from that square. -/
def Engine.Coherent (e : Engine Pos Sq) : Prop :=
  ∀ p f t, (e.applyMove p f t).isSome = true ↔ t ∈ e.movesFrom p f

/-! ### Reachability under click transitions

Claim C9 quantifies over states reached from the initial (reset) state by
click transitions; these predicates capture exactly that. -/

/-- Variant 1 states reachable from the reset state by clicks. -/
inductive Reachable1 [DecidableEq Sq] (e : Engine Pos Sq) :
    AppState1 Pos Sq → Prop where
  | init : Reachable1 e (resetGame1 e)
  | click (st : AppState1 Pos Sq) (sq : Sq) :
      Reachable1 e st → Reachable1 e (handleSquareClick1 e st sq)

/-- Variant 2 states reachable from the mount state by clicks. -/
inductive Reachable2 [DecidableEq Sq] (e : Engine Pos Sq) :
    AppState2 Pos Sq → Prop where
  | init : Reachable2 e (initState2 e)
  | click (st : AppState2 Pos Sq) (sq : Sq) :
      Reachable2 e st → Reachable2 e (handleSquareClick2 e st sq)

/-! ### A small concrete engine

A two-position, four-square instance of the Rules Engine interface, used
to evaluate the embedded code at concrete inputs.  Position `0`: White to
move, a white queen on square `0` whose only legal move is to the empty
square `1`, a white pawn on square `2` with no legal moves (fully pinned),
a black rook on square `3`.  Position `1` (after queen `0 → 1`): Black to
move and checkmated, so the game is over and no square has legal moves. -/
def toyEngine : Engine (Fin 2) (Fin 4) where
  init := 0
  turn := fun p => if p = 0 then Side.white else Side.black
  pieceAt := fun p sq =>
    if p = 0 then
      if sq = 0 then some { color := Side.white, kind := PieceKind.queen }
      else if sq = 2 then some { color := Side.white, kind := PieceKind.pawn }
      else if sq = 3 then some { color := Side.black, kind := PieceKind.rook }
      else none
    else
      if sq = 1 then some { color := Side.white, kind := PieceKind.queen }
      else if sq = 2 then some { color := Side.white, kind := PieceKind.pawn }
      else if sq = 3 then some { color := Side.black, kind := PieceKind.rook }
      else none
  movesFrom := fun p sq => if p = 0 then (if sq = 0 then [1] else []) else []
  applyMove := fun p f t =>
    if p = 0 ∧ f = 0 ∧ t = 1 then
      some (1, { fromSq := 0, toSq := 1, san := "Qb1" })
    else none
  inCheck := fun p => p == 1
  isCheckmate := fun p => p == 1
  isDraw := fun _ => false
  isGameOver := fun p => p == 1

/-- The concrete engine satisfies the chess.js coherence contract. -/
lemma toyEngine_coherent : toyEngine.Coherent := by
  intro p f t
  fin_cases p <;> fin_cases f <;> fin_cases t <;> simp [toyEngine, Engine.Coherent]

/-! ### Claim theorems -/

/-- C2 (counterexample to the stated failure value): the rejected
submission `0 → 2` makes the unnamed `App`'s `makeMove` return `undefined`
(`none`), not an `IllegalMove` failure value — and the same `undefined` it
returns on the accepted submission `0 → 1`, so the caller cannot
distinguish rejection from success by the return value. -/
theorem rejectedMoveReturnValueIndistinguishable :
    toyEngine.applyMove (initState2 toyEngine).game.pos 0 2 = none ∧
    makeMove2Return toyEngine (initState2 toyEngine) 0 2 = none ∧
    makeMove2Return toyEngine (initState2 toyEngine) 0 2 ≠ some false ∧
    makeMove2Return toyEngine (initState2 toyEngine) 0 2
        = makeMove2Return toyEngine (initState2 toyEngine) 0 1 := by
  exact ⟨rfl, rfl, by decide, rfl⟩

/-- C2 (amended): every move submission the Rules Engine rejects leaves
the Snapshot, LastMove and HistoryLog exactly as they were — the resulting
state is the input state — and neither `makeMove` raises an uncaught
exception (both embedded functions are total): variant 1 returns the
failure value `false`, while variant 2's `makeMove` returns no value at
all (`undefined`, the same as on success), so there rejection is
signalled only by the unchanged state. -/
theorem rejectedMoveNoFaultStateUntouched [DecidableEq Sq]
    (e : Engine Pos Sq) (st1 : AppState1 Pos Sq) (st2 : AppState2 Pos Sq)
    (f t : Sq)
    (h1 : e.applyMove st1.game.pos f t = none)
    (h2 : e.applyMove st2.game.pos f t = none) :
    makeMove1 e st1 f t = (false, st1) ∧
    makeMove2 e st2 f t = st2 ∧
    makeMove2Return e st2 f t = none := by
  refine ⟨?_, ?_, ?_⟩
  · simp [makeMove1, GameObj.move, h1]
  · simp [makeMove2, GameObj.move, h2]
  · simp [makeMove2Return, GameObj.move, h2]

/-- C2 witness: at the concrete engine, the submission `0 → 2` (queen to
the pinned pawn's square) is rejected from the initial position of both
variants, both states are returned untouched, and variant 2 returns
`undefined`. -/
theorem rejectedMoveNoFaultStateUntouched_witness :
    makeMove1 toyEngine (resetGame1 toyEngine) 0 2
        = (false, resetGame1 toyEngine) ∧
      makeMove2 toyEngine (initState2 toyEngine) 0 2
        = initState2 toyEngine ∧
      makeMove2Return toyEngine (initState2 toyEngine) 0 2 = none :=
  rejectedMoveNoFaultStateUntouched toyEngine (resetGame1 toyEngine)
    (initState2 toyEngine) 0 2 (by decide) (by decide)

/-- C3: every accepted move commits, in one step, the state in which the
HistoryLog has grown by exactly one entry (the engine's SAN), the
selection is Idle (so the derived hints are empty), the LastMove is the
accepted move's from/to pair, and the Snapshot is the engine's new
position — the full-record equation exhibits the triple as a single
atomic update of the pure step function. -/
theorem acceptedMoveCommitsAtomically [DecidableEq Sq]
    (e : Engine Pos Sq) (st : AppState1 Pos Sq) (f t : Sq)
    (p : Pos) (r : MoveRec Sq)
    (h : e.applyMove st.game.pos f t = some (p, r)) :
    makeMove1 e st f t
        = (true, { game := chessFromFen p
                   selectedSquare := none
                   lastMove := some (f, t)
                   moveHistory := st.moveHistory ++ [r.san] }) ∧
      (makeMove1 e st f t).2.moveHistory.length
        = st.moveHistory.length + 1 ∧
      (makeMove1 e st f t).2.selectedSquare = none ∧
      validMoves1 e (makeMove1 e st f t).2 = [] ∧
      (makeMove1 e st f t).2.lastMove = some (f, t) := by
  refine ⟨?_, ?_, ?_, ?_, ?_⟩ <;>
    simp [makeMove1, GameObj.move, h, validMoves1]

/-- C3 witness: at the concrete engine, the accepted queen move `0 → 1`
from the reset state commits history length 1, Idle selection, empty
hints and LastMove `(0, 1)` in one step. -/
theorem acceptedMoveCommitsAtomically_witness :
    makeMove1 toyEngine (resetGame1 toyEngine) 0 1
        = (true, { game := chessFromFen 1
                   selectedSquare := none
                   lastMove := some (0, 1)
                   moveHistory := [] ++ ["Qb1"] }) ∧
      (makeMove1 toyEngine (resetGame1 toyEngine) 0 1).2.moveHistory.length
        = (resetGame1 toyEngine).moveHistory.length + 1 ∧
      (makeMove1 toyEngine (resetGame1 toyEngine) 0 1).2.selectedSquare
        = none ∧
      validMoves1 toyEngine (makeMove1 toyEngine (resetGame1 toyEngine) 0 1).2
        = [] ∧
      (makeMove1 toyEngine (resetGame1 toyEngine) 0 1).2.lastMove
        = some (0, 1) :=
  acceptedMoveCommitsAtomically toyEngine (resetGame1 toyEngine) 0 1 1
    { fromSq := 0, toSq := 1, san := "Qb1" } (by decide)

/-- The variant-1 state after the mating queen move `0 → 1` from reset. -/
def mate1 : AppState1 (Fin 2) (Fin 4) :=
  (makeMove1 toyEngine (resetGame1 toyEngine) 0 1).2

/-- The variant-2 state after the mating queen move `0 → 1` from mount. -/
def mate2 : AppState2 (Fin 2) (Fin 4) :=
  makeMove2 toyEngine (initState2 toyEngine) 0 1

/-- `updateStatus` never touches the game object. -/
lemma updateStatus_game (e : Engine Pos Sq) (st : AppState2 Pos Sq) :
    (updateStatus e st).game = st.game := by
  unfold updateStatus; split_ifs <;> rfl

/-- `updateStatus` never touches the history. -/
lemma updateStatus_moveHistory (e : Engine Pos Sq) (st : AppState2 Pos Sq) :
    (updateStatus e st).moveHistory = st.moveHistory := by
  unfold updateStatus; split_ifs <;> rfl

/-- `updateStatus` never touches the selection. -/
lemma updateStatus_selectedSquare (e : Engine Pos Sq) (st : AppState2 Pos Sq) :
    (updateStatus e st).selectedSquare = st.selectedSquare := by
  unfold updateStatus; split_ifs <;> rfl

/-- `updateStatus` never touches the hints. -/
lemma updateStatus_hintSquares (e : Engine Pos Sq) (st : AppState2 Pos Sq) :
    (updateStatus e st).hintSquares = st.hintSquares := by
  unfold updateStatus; split_ifs <;> rfl

/-- `updateStatus` sets `gameEnded` on checkmate/draw and otherwise leaves
it alone, so a set flag survives every status update. -/
lemma updateStatus_gameEnded_mono (e : Engine Pos Sq) (st : AppState2 Pos Sq)
    (h : st.gameEnded = true) : (updateStatus e st).gameEnded = true := by
  unfold updateStatus; split_ifs <;> simp [h]

/-- `makeMove` (variant 2) never clears a set `gameEnded` flag. -/
lemma makeMove2_gameEnded_mono [DecidableEq Sq] (e : Engine Pos Sq)
    (st : AppState2 Pos Sq) (f t : Sq) (h : st.gameEnded = true) :
    (makeMove2 e st f t).gameEnded = true := by
  unfold makeMove2
  cases hmv : st.game.move e f t with
  | none => exact h
  | some gr => exact updateStatus_gameEnded_mono e _ h

/-- `ChessBoard.handleSquareClick` never clears a set `gameEnded` flag. -/
lemma handleSquareClick2_gameEnded_mono [DecidableEq Sq] (e : Engine Pos Sq)
    (st : AppState2 Pos Sq) (sq : Sq) (h : st.gameEnded = true) :
    (handleSquareClick2 e st sq).gameEnded = true := by
  unfold handleSquareClick2
  cases hsel : st.selectedSquare with
  | none => split_ifs <;> simp [h]
  | some sel =>
      split_ifs with h1 h2 h3
      · exact h
      · exact h
      · exact makeMove2_gameEnded_mono e st sel sq h
      · exact h

/-- C1 (demonstration of the divergence): after the mating move, the
`App.tsx` controller does refuse every click (the state is returned
untouched), but the `ChessBoard.tsx` controller has no game-over gate: at
the checkmate position — `isGameOver` true, `gameEnded` true, selection
Idle — clicking square `3` (a piece of the side to move) makes it the
selected square instead of being refused. -/
theorem chessBoardClickNotRefusedAfterGameOver :
    toyEngine.isGameOver mate2.game.pos = true ∧
    mate2.gameEnded = true ∧
    mate2.selectedSquare = none ∧
    (handleSquareClick2 toyEngine mate2 3).selectedSquare = some 3 ∧
    toyEngine.isGameOver mate1.game.pos = true ∧
    handleSquareClick1 toyEngine mate1 3 = mate1 := by
  refine ⟨rfl, rfl, rfl, rfl, rfl, rfl⟩

/-- C4 (demonstration of the divergence): applying the accepted move
`0 → 1` and then undoing it pops the HistoryLog entry (length back to 0,
LastMove recomputed to none) but does NOT restore the pre-move Snapshot:
`game.undo()` is a no-op because every `setGame(new Chess(game.fen()))`
discarded the engine's internal history, so the position after undo still
equals the post-move position and differs from the pre-move one. -/
theorem undoAfterMoveDoesNotRestoreSnapshot :
    mate2.moveHistory.length
        = (initState2 toyEngine).moveHistory.length + 1 ∧
    (undoMove toyEngine mate2).2.moveHistory.length
        = (initState2 toyEngine).moveHistory.length ∧
    lastMove2 (undoMove toyEngine mate2).2 = none ∧
    (undoMove toyEngine mate2).2.game.pos = mate2.game.pos ∧
    (undoMove toyEngine mate2).2.game.pos
        ≠ (initState2 toyEngine).game.pos := by
  refine ⟨rfl, rfl, rfl, rfl, by decide⟩

/-- C5 (counterexample to the stated return value): with the HistoryLog
empty, `undoMove` does not return `false` — the handler has no return
statement, so its value is undefined (`none`), not the boolean `false`
the claim states. -/
theorem undoOnEmptyHistoryReturnValue :
    (initState2 toyEngine).moveHistory = [] ∧
    (undoMove toyEngine (initState2 toyEngine)).1 ≠ some false := by
  exact ⟨rfl, by decide⟩

/-- C5 (amended): with the HistoryLog empty (and the game object's
internal stack empty, as it is in every reachable state), `undoMove`
returns no value (`none`, i.e. undefined) and changes nothing observable:
the game object, HistoryLog, derived LastMove, selection and hints are all
unchanged.  The UI guards the call by disabling the button instead of
returning `false`. -/
theorem undoOnEmptyHistoryChangesNothing [DecidableEq Sq]
    (e : Engine Pos Sq) (st : AppState2 Pos Sq)
    (hh : st.moveHistory = [])
    (hg : st.game.hist = []) :
    (undoMove e st).1 = none ∧
    (undoMove e st).2.game = st.game ∧
    (undoMove e st).2.moveHistory = st.moveHistory ∧
    lastMove2 (undoMove e st).2 = lastMove2 st ∧
    (undoMove e st).2.selectedSquare = st.selectedSquare ∧
    (undoMove e st).2.hintSquares = st.hintSquares := by
  have hundo : st.game.undo = st.game := by
    unfold GameObj.undo; rw [hg]; rfl
  have hfen : chessFromFen st.game.pos = st.game := by
    unfold chessFromFen; rw [← hg]
  have hbody : (undoMove e st).2
      = updateStatus e { st with game := chessFromFen st.game.undo.pos
                                 moveHistory := st.moveHistory.dropLast } := rfl
  rw [hundo, hfen] at hbody
  refine ⟨rfl, ?_, ?_, ?_, ?_, ?_⟩
  · rw [hbody, updateStatus_game]
  · rw [hbody, updateStatus_moveHistory]; simp [hh]
  · unfold lastMove2
    rw [hbody, updateStatus_moveHistory]; simp [hh]
  · rw [hbody, updateStatus_selectedSquare]
  · rw [hbody, updateStatus_hintSquares]

/-- C5 witness: the amended no-op property evaluated at the mount state of
the concrete engine. -/
theorem undoOnEmptyHistoryChangesNothing_witness :
    (undoMove toyEngine (initState2 toyEngine)).1 = none ∧
    (undoMove toyEngine (initState2 toyEngine)).2.game
        = (initState2 toyEngine).game ∧
    (undoMove toyEngine (initState2 toyEngine)).2.moveHistory
        = (initState2 toyEngine).moveHistory ∧
    lastMove2 (undoMove toyEngine (initState2 toyEngine)).2
        = lastMove2 (initState2 toyEngine) ∧
    (undoMove toyEngine (initState2 toyEngine)).2.selectedSquare
        = (initState2 toyEngine).selectedSquare ∧
    (undoMove toyEngine (initState2 toyEngine)).2.hintSquares
        = (initState2 toyEngine).hintSquares :=
  undoOnEmptyHistoryChangesNothing toyEngine (initState2 toyEngine) rfl rfl

/-- C10 (amended): undo is not gated by game end — in any state whose game
object has an empty internal stack (as every reachable state does),
`undoMove` pops the last HistoryLog entry, but it does NOT rewind the
position, which stays at the current ply; and the `gameEnded` flag, once
set, survives both `undoMove` and every `ChessBoard` click — only
`resetGame` clears it. -/
theorem undoUngatedAndGameEndedMonotone [DecidableEq Sq]
    (e : Engine Pos Sq) (st : AppState2 Pos Sq) (sq : Sq)
    (hg : st.game.hist = [])
    (he : st.gameEnded = true) :
    (undoMove e st).2.moveHistory = st.moveHistory.dropLast ∧
    (undoMove e st).2.game.pos = st.game.pos ∧
    (undoMove e st).2.gameEnded = true ∧
    (handleSquareClick2 e st sq).gameEnded = true ∧
    (resetGame2 e st).gameEnded = false := by
  have hundo : st.game.undo = st.game := by
    unfold GameObj.undo; rw [hg]; rfl
  have hbody : (undoMove e st).2
      = updateStatus e { st with game := chessFromFen st.game.undo.pos
                                 moveHistory := st.moveHistory.dropLast } := rfl
  rw [hundo] at hbody
  refine ⟨?_, ?_, ?_, ?_, rfl⟩
  · rw [hbody, updateStatus_moveHistory]
  · rw [hbody, updateStatus_game]; rfl
  · rw [hbody]; exact updateStatus_gameEnded_mono e _ he
  · exact handleSquareClick2_gameEnded_mono e st sq he

/-- C10 witness: the amended property evaluated after the mating move of
the concrete engine: the history entry is popped, the position stays at
the mate, `gameEnded` stays true through undo and a click on square `3`,
and reset clears it. -/
theorem undoUngatedAndGameEndedMonotone_witness :
    (undoMove toyEngine mate2).2.moveHistory
        = mate2.moveHistory.dropLast ∧
    (undoMove toyEngine mate2).2.game.pos = mate2.game.pos ∧
    (undoMove toyEngine mate2).2.gameEnded = true ∧
    (handleSquareClick2 toyEngine mate2 3).gameEnded = true ∧
    (resetGame2 toyEngine mate2).gameEnded = false :=
  undoUngatedAndGameEndedMonotone toyEngine mate2 3 rfl rfl

/-- C10 (counterexample to the stated rewind): after the move that
produces Checkmate, `undoMove` does pop the HistoryLog entry, but the
resulting position is not the one-ply-earlier position: the Snapshot is
not rewound. -/
theorem undoAfterCheckmateKeepsMatePosition :
    toyEngine.isCheckmate mate2.game.pos = true ∧
    mate2.gameEnded = true ∧
    (undoMove toyEngine mate2).2.moveHistory = [] ∧
    (undoMove toyEngine mate2).2.game.pos
        ≠ (initState2 toyEngine).game.pos := by
  refine ⟨rfl, rfl, rfl, by decide⟩

/-- Shared helper: in both handlers, a click on a square holding a piece
of the side to move, when that square is not the currently selected one
(and, in variant 1, the game is not over), takes the friendly-piece
branch: the square becomes selected and the hints are the engine's legal
destination list for it. -/
lemma friendlyClick_selects [DecidableEq Sq]
    (e : Engine Pos Sq) (st1 : AppState1 Pos Sq) (st2 : AppState2 Pos Sq)
    (sq : Sq) (pc1 pc2 : Piece)
    (hgo : e.isGameOver st1.game.pos = false)
    (hne1 : st1.selectedSquare ≠ some sq)
    (hp1 : e.pieceAt st1.game.pos sq = some pc1)
    (hc1 : pc1.color = e.turn st1.game.pos)
    (hne2 : st2.selectedSquare ≠ some sq)
    (hp2 : e.pieceAt st2.game.pos sq = some pc2)
    (hc2 : pc2.color = e.turn st2.game.pos) :
    handleSquareClick1 e st1 sq = { st1 with selectedSquare := some sq } ∧
    validMoves1 e (handleSquareClick1 e st1 sq)
        = e.movesFrom st1.game.pos sq ∧
    handleSquareClick2 e st2 sq
        = { st2 with selectedSquare := some sq
                     hintSquares := e.movesFrom st2.game.pos sq } := by
  have hf1 : (e.pieceAt st1.game.pos sq).map Piece.color
      = some (e.turn st1.game.pos) := by rw [hp1, Option.map_some', hc1]
  have hf2 : (e.pieceAt st2.game.pos sq).map Piece.color
      = some (e.turn st2.game.pos) := by rw [hp2, Option.map_some', hc2]
  have h1 : handleSquareClick1 e st1 sq
      = { st1 with selectedSquare := some sq } := by
    unfold handleSquareClick1
    rw [if_neg (by simp [hgo]), if_neg hne1, if_pos hf1]
  refine ⟨h1, ?_, ?_⟩
  · rw [h1]; rfl
  · unfold handleSquareClick2
    rw [if_neg hne2, if_pos hf2]

/-- C6: clicking a square holding a piece of the side to move, from Idle
or with a different square selected (and, in variant 1, with the game not
over — otherwise the C1 gate refuses the click), selects that square and
yields hints exactly equal to the Rules Engine's legal destination list
for it at the current Snapshot — both when the board stores them
(`hintSquares`) and when they are derived (`validMoves`) — including the
case of an empty list, where the selection is still made. -/
theorem selectOwnPieceYieldsExactHints [DecidableEq Sq]
    (e : Engine Pos Sq) (st1 : AppState1 Pos Sq) (st2 : AppState2 Pos Sq)
    (sq : Sq) (pc1 pc2 : Piece)
    (hgo : e.isGameOver st1.game.pos = false)
    (hne1 : st1.selectedSquare ≠ some sq)
    (hp1 : e.pieceAt st1.game.pos sq = some pc1)
    (hc1 : pc1.color = e.turn st1.game.pos)
    (hne2 : st2.selectedSquare ≠ some sq)
    (hp2 : e.pieceAt st2.game.pos sq = some pc2)
    (hc2 : pc2.color = e.turn st2.game.pos) :
    handleSquareClick1 e st1 sq = { st1 with selectedSquare := some sq } ∧
    validMoves1 e (handleSquareClick1 e st1 sq)
        = e.movesFrom st1.game.pos sq ∧
    handleSquareClick2 e st2 sq
        = { st2 with selectedSquare := some sq
                     hintSquares := e.movesFrom st2.game.pos sq } :=
  friendlyClick_selects e st1 st2 sq pc1 pc2 hgo hne1 hp1 hc1 hne2 hp2 hc2

/-- C6 witness: clicking the pinned white pawn on square `2` from both
reset states selects it with hints exactly the engine's empty legal
destination list. -/
theorem selectOwnPieceYieldsExactHints_witness :
    handleSquareClick1 toyEngine (resetGame1 toyEngine) 2
        = { resetGame1 toyEngine with selectedSquare := some 2 } ∧
    validMoves1 toyEngine (handleSquareClick1 toyEngine (resetGame1 toyEngine) 2)
        = toyEngine.movesFrom (resetGame1 toyEngine).game.pos 2 ∧
    handleSquareClick2 toyEngine (initState2 toyEngine) 2
        = { initState2 toyEngine with
              selectedSquare := some 2
              hintSquares := toyEngine.movesFrom
                (initState2 toyEngine).game.pos 2 } :=
  selectOwnPieceYieldsExactHints toyEngine (resetGame1 toyEngine)
    (initState2 toyEngine) 2
    { color := Side.white, kind := PieceKind.pawn }
    { color := Side.white, kind := PieceKind.pawn }
    rfl (by decide) rfl rfl (by decide) rfl rfl

/-- C7: with a square already selected, clicking a different square that
holds a piece of the side to move reselects it directly — the new state is
the old one with the selection moved and fresh hints — whether or not the
clicked square lies in the current hints and regardless of what the engine
would say about a move there (no hypothesis on `applyMove` is needed): no
move is submitted, since the friendly-piece branch precedes the move
attempt in both handlers, and `game` and `moveHistory` are unchanged in
the resulting record. -/
theorem reselectOwnPieceWithFreshHints [DecidableEq Sq]
    (e : Engine Pos Sq) (st1 : AppState1 Pos Sq) (st2 : AppState2 Pos Sq)
    (s1 s2 sq : Sq) (pc1 pc2 : Piece)
    (hgo : e.isGameOver st1.game.pos = false)
    (hs1 : st1.selectedSquare = some s1) (hd1 : sq ≠ s1)
    (hp1 : e.pieceAt st1.game.pos sq = some pc1)
    (hc1 : pc1.color = e.turn st1.game.pos)
    (hs2 : st2.selectedSquare = some s2) (hd2 : sq ≠ s2)
    (hp2 : e.pieceAt st2.game.pos sq = some pc2)
    (hc2 : pc2.color = e.turn st2.game.pos) :
    handleSquareClick1 e st1 sq = { st1 with selectedSquare := some sq } ∧
    validMoves1 e (handleSquareClick1 e st1 sq)
        = e.movesFrom st1.game.pos sq ∧
    handleSquareClick2 e st2 sq
        = { st2 with selectedSquare := some sq
                     hintSquares := e.movesFrom st2.game.pos sq } := by
  have hne1 : st1.selectedSquare ≠ some sq := by
    rw [hs1]; intro hcontra
    exact hd1 (Option.some.inj hcontra).symm
  have hne2 : st2.selectedSquare ≠ some sq := by
    rw [hs2]; intro hcontra
    exact hd2 (Option.some.inj hcontra).symm
  exact friendlyClick_selects e st1 st2 sq pc1 pc2 hgo hne1 hp1 hc1
    hne2 hp2 hc2

/-- C7 witness: with the queen on square `0` selected (hints `[1]`),
clicking the white pawn on square `2` — not among the hints — reselects it
with its own empty hint list in both variants, with game and history
untouched. -/
theorem reselectOwnPieceWithFreshHints_witness :
    handleSquareClick1 toyEngine
        { resetGame1 toyEngine with selectedSquare := some 0 } 2
        = { { resetGame1 toyEngine with selectedSquare := some 0 } with
              selectedSquare := some 2 } ∧
    validMoves1 toyEngine (handleSquareClick1 toyEngine
        { resetGame1 toyEngine with selectedSquare := some 0 } 2)
        = toyEngine.movesFrom
            ({ resetGame1 toyEngine with
                selectedSquare := some 0 } : AppState1 (Fin 2) (Fin 4)).game.pos 2 ∧
    handleSquareClick2 toyEngine
        { initState2 toyEngine with
            selectedSquare := some 0, hintSquares := [1] } 2
        = { { initState2 toyEngine with
                selectedSquare := some 0, hintSquares := [1] } with
              selectedSquare := some 2
              hintSquares := toyEngine.movesFrom
                ({ initState2 toyEngine with
                    selectedSquare := some 0,
                    hintSquares := [1] } : AppState2 (Fin 2) (Fin 4)).game.pos 2 } :=
  reselectOwnPieceWithFreshHints toyEngine
    { resetGame1 toyEngine with selectedSquare := some 0 }
    { initState2 toyEngine with selectedSquare := some 0, hintSquares := [1] }
    0 0 2
    { color := Side.white, kind := PieceKind.pawn }
    { color := Side.white, kind := PieceKind.pawn }
    rfl rfl (by decide) rfl rfl rfl (by decide) rfl rfl

/-- C8: with a square selected, clicking a square that is empty or holds
an opponent piece and is not among the current hints cancels: the
selection becomes Idle with hints cleared, and `game`, `moveHistory` and
`lastMove` are unchanged — in variant 1 the handler does submit the move
speculatively, but by engine coherence a non-hint destination is rejected,
so nothing is committed; in variant 2 the hint-membership test fails and
`onMove` is never called. -/
theorem cancelClickClearsSelectionOnly [DecidableEq Sq]
    (e : Engine Pos Sq) (hcoh : e.Coherent)
    (st1 : AppState1 Pos Sq) (st2 : AppState2 Pos Sq)
    (s1 s2 sq : Sq)
    (hgo : e.isGameOver st1.game.pos = false)
    (hs1 : st1.selectedSquare = some s1) (hd1 : sq ≠ s1)
    (hp1 : (e.pieceAt st1.game.pos sq).map Piece.color
        ≠ some (e.turn st1.game.pos))
    (hm1 : sq ∉ e.movesFrom st1.game.pos s1)
    (hs2 : st2.selectedSquare = some s2) (hd2 : sq ≠ s2)
    (hp2 : (e.pieceAt st2.game.pos sq).map Piece.color
        ≠ some (e.turn st2.game.pos))
    (hm2 : sq ∉ st2.hintSquares) :
    handleSquareClick1 e st1 sq = { st1 with selectedSquare := none } ∧
    handleSquareClick2 e st2 sq
        = { st2 with selectedSquare := none, hintSquares := [] } := by
  have happ : e.applyMove st1.game.pos s1 sq = none := by
    cases h : e.applyMove st1.game.pos s1 sq with
    | none => rfl
    | some v =>
        exact absurd ((hcoh st1.game.pos s1 sq).mp (by rw [h]; rfl)) hm1
  have hne1 : st1.selectedSquare ≠ some sq := by
    rw [hs1]; intro hcontra; exact hd1 (Option.some.inj hcontra).symm
  have hne2 : st2.selectedSquare ≠ some sq := by
    rw [hs2]; intro hcontra; exact hd2 (Option.some.inj hcontra).symm
  constructor
  · unfold handleSquareClick1
    rw [if_neg (by simp [hgo]), if_neg hne1, if_neg hp1, hs1]
    simp [makeMove1, GameObj.move, happ, hp1]
  · unfold handleSquareClick2
    rw [if_neg hne2, if_neg hp2, hs2]
    simp [hm2]

/-- C8 witness: with the queen on square `0` selected, clicking the black
rook on square `3` — an opponent piece outside the hints — cancels in both
variants without touching game or history. -/
theorem cancelClickClearsSelectionOnly_witness :
    handleSquareClick1 toyEngine
        { resetGame1 toyEngine with selectedSquare := some 0 } 3
        = { { resetGame1 toyEngine with selectedSquare := some 0 } with
              selectedSquare := none } ∧
    handleSquareClick2 toyEngine
        { initState2 toyEngine with
            selectedSquare := some 0, hintSquares := [1] } 3
        = { { initState2 toyEngine with
                selectedSquare := some 0, hintSquares := [1] } with
              selectedSquare := none
              hintSquares := [] } :=
  cancelClickClearsSelectionOnly toyEngine toyEngine_coherent
    { resetGame1 toyEngine with selectedSquare := some 0 }
    { initState2 toyEngine with selectedSquare := some 0, hintSquares := [1] }
    0 0 3
    rfl rfl (by decide) (by decide) (by decide)
    rfl (by decide) (by decide) (by decide)

/-- Variant-1 selection invariant: any selected square holds a piece of
the side to move of the current Snapshot. -/
def SelInv1 (e : Engine Pos Sq) (st : AppState1 Pos Sq) : Prop :=
  ∀ s, st.selectedSquare = some s →
    (e.pieceAt st.game.pos s).map Piece.color = some (e.turn st.game.pos)

/-- Variant-2 selection invariant: any selected square holds a piece of
the side to move, and the stored hints are exactly the engine's legal
destinations for it at the current Snapshot. -/
def SelInv2 (e : Engine Pos Sq) (st : AppState2 Pos Sq) : Prop :=
  ∀ s, st.selectedSquare = some s →
    (e.pieceAt st.game.pos s).map Piece.color = some (e.turn st.game.pos) ∧
    st.hintSquares = e.movesFrom st.game.pos s

/-- Every `App.tsx` click transition preserves the selection invariant. -/
lemma handleSquareClick1_preserves_selInv [DecidableEq Sq]
    (e : Engine Pos Sq) (st : AppState1 Pos Sq) (sq : Sq)
    (ih : SelInv1 e st) : SelInv1 e (handleSquareClick1 e st sq) := by
  by_cases hgo : e.isGameOver st.game.pos = true
  · have h : handleSquareClick1 e st sq = st := by
      unfold handleSquareClick1; rw [if_pos hgo]
    rw [h]; exact ih
  · by_cases hsel : st.selectedSquare = some sq
    · have h : handleSquareClick1 e st sq
          = { st with selectedSquare := none } := by
        unfold handleSquareClick1; rw [if_neg hgo, if_pos hsel]
      rw [h]; intro s hs; exact absurd hs (by simp)
    · by_cases hfr : (e.pieceAt st.game.pos sq).map Piece.color
          = some (e.turn st.game.pos)
      · have h : handleSquareClick1 e st sq
            = { st with selectedSquare := some sq } := by
          unfold handleSquareClick1; rw [if_neg hgo, if_neg hsel, if_pos hfr]
        rw [h]; intro s hs
        have hq : sq = s := Option.some.inj hs
        subst hq; exact hfr
      · cases hmatch : st.selectedSquare with
        | none =>
            have h : handleSquareClick1 e st sq = st := by
              unfold handleSquareClick1
              rw [if_neg hgo, if_neg hsel, if_neg hfr, hmatch]
            rw [h]; exact ih
        | some sel =>
            cases happ : e.applyMove st.game.pos sel sq with
            | some pr =>
                have h : handleSquareClick1 e st sq
                    = (makeMove1 e st sel sq).2 := by
                  unfold handleSquareClick1
                  rw [if_neg hgo, if_neg hsel, if_neg hfr, hmatch]
                  simp [makeMove1, GameObj.move, happ]
                have h2 : (makeMove1 e st sel sq).2.selectedSquare = none := by
                  simp [makeMove1, GameObj.move, happ]
                rw [h]; intro s hs
                rw [h2] at hs; exact absurd hs (by simp)
            | none =>
                have h : handleSquareClick1 e st sq
                    = { st with selectedSquare := none } := by
                  unfold handleSquareClick1
                  rw [if_neg hgo, if_neg hsel, if_neg hfr, hmatch]
                  simp [makeMove1, GameObj.move, happ, hfr]
                rw [h]; intro s hs; exact absurd hs (by simp)

/-- Every `ChessBoard.tsx` click transition preserves the selection/hint
invariant. -/
lemma handleSquareClick2_preserves_selInv [DecidableEq Sq]
    (e : Engine Pos Sq) (st : AppState2 Pos Sq) (sq : Sq) :
    SelInv2 e (handleSquareClick2 e st sq) := by
  by_cases hsel : st.selectedSquare = some sq
  · have h : handleSquareClick2 e st sq
        = { st with selectedSquare := none, hintSquares := [] } := by
      unfold handleSquareClick2; rw [if_pos hsel]
    rw [h]; intro s hs; exact absurd hs (by simp)
  · by_cases hfr : (e.pieceAt st.game.pos sq).map Piece.color
        = some (e.turn st.game.pos)
    · have h : handleSquareClick2 e st sq
          = { st with selectedSquare := some sq
                      hintSquares := e.movesFrom st.game.pos sq } := by
        unfold handleSquareClick2; rw [if_neg hsel, if_pos hfr]
      rw [h]; intro s hs
      have hq : sq = s := Option.some.inj hs
      subst hq; exact ⟨hfr, rfl⟩
    · cases hmatch : st.selectedSquare with
      | none =>
          have h : handleSquareClick2 e st sq
              = { st with selectedSquare := none, hintSquares := [] } := by
            unfold handleSquareClick2
            rw [if_neg hsel, if_neg hfr, hmatch]
          rw [h]; intro s hs; exact absurd hs (by simp)
      | some sel =>
          by_cases hmem : sq ∈ st.hintSquares
          · have h : handleSquareClick2 e st sq
                = { makeMove2 e st sel sq with
                      selectedSquare := none, hintSquares := [] } := by
              unfold handleSquareClick2
              rw [if_neg hsel, if_neg hfr, hmatch]
              simp [hmem]
            rw [h]; intro s hs; exact absurd hs (by simp)
          · have h : handleSquareClick2 e st sq
                = { st with selectedSquare := none, hintSquares := [] } := by
              unfold handleSquareClick2
              rw [if_neg hsel, if_neg hfr, hmatch]
              simp [hmem]
            rw [h]; intro s hs; exact absurd hs (by simp)

/-- Variant-1 invariant holds in every click-reachable state. -/
lemma reachable1_selInv [DecidableEq Sq] (e : Engine Pos Sq)
    (st : AppState1 Pos Sq) (h : Reachable1 e st) : SelInv1 e st := by
  induction h with
  | init => intro s hs; exact absurd hs (by simp [resetGame1])
  | click st sq hr ih => exact handleSquareClick1_preserves_selInv e st sq ih

/-- Variant-2 invariant holds in every click-reachable state. -/
lemma reachable2_selInv [DecidableEq Sq] (e : Engine Pos Sq)
    (st : AppState2 Pos Sq) (h : Reachable2 e st) : SelInv2 e st := by
  induction h with
  | init => intro s hs; exact absurd hs (by simp [initState2])
  | click st sq hr ih => exact handleSquareClick2_preserves_selInv e st sq

/-- C9: in every state reached from the initial (reset) state by click
transitions, a set selected square holds a piece whose side equals the
side to move of the current Snapshot — in both variants — and hence the
stored hints of variant 2 are exactly the legal destinations of an own
piece. -/
theorem selectedSquareAlwaysOwnPiece [DecidableEq Sq]
    (e : Engine Pos Sq) (st1 : AppState1 Pos Sq) (st2 : AppState2 Pos Sq)
    (h1 : Reachable1 e st1) (h2 : Reachable2 e st2) (s1 s2 : Sq)
    (hs1 : st1.selectedSquare = some s1)
    (hs2 : st2.selectedSquare = some s2) :
    (e.pieceAt st1.game.pos s1).map Piece.color
        = some (e.turn st1.game.pos) ∧
    (e.pieceAt st2.game.pos s2).map Piece.color
        = some (e.turn st2.game.pos) ∧
    st2.hintSquares = e.movesFrom st2.game.pos s2 :=
  ⟨reachable1_selInv e st1 h1 s1 hs1,
   (reachable2_selInv e st2 h2 s2 hs2).1,
   (reachable2_selInv e st2 h2 s2 hs2).2⟩

/-- C9 witness: after clicking the white pawn on square `2` from each
variant's reset state (a click-reachable state with a selection), the
selected square holds an own piece and the stored hints are its legal
destination list. -/
theorem selectedSquareAlwaysOwnPiece_witness :
    (toyEngine.pieceAt
        (handleSquareClick1 toyEngine (resetGame1 toyEngine) 2).game.pos
        2).map Piece.color
      = some (toyEngine.turn
          (handleSquareClick1 toyEngine (resetGame1 toyEngine) 2).game.pos) ∧
    (toyEngine.pieceAt
        (handleSquareClick2 toyEngine (initState2 toyEngine) 2).game.pos
        2).map Piece.color
      = some (toyEngine.turn
          (handleSquareClick2 toyEngine (initState2 toyEngine) 2).game.pos) ∧
    (handleSquareClick2 toyEngine (initState2 toyEngine) 2).hintSquares
      = toyEngine.movesFrom
          (handleSquareClick2 toyEngine (initState2 toyEngine) 2).game.pos 2 :=
  selectedSquareAlwaysOwnPiece toyEngine
    (handleSquareClick1 toyEngine (resetGame1 toyEngine) 2)
    (handleSquareClick2 toyEngine (initState2 toyEngine) 2)
    (Reachable1.click (resetGame1 toyEngine) 2 Reachable1.init)
    (Reachable2.click (initState2 toyEngine) 2 Reachable2.init)
    2 2 (by decide) (by decide)
